import Mathlib

/-!
# Verification of the `#[async]` attribute transformer (`src/src/lib.rs`)

Shallow embedding of the three functions of the crate — `async_attribute`,
`handle_statements` and `handle_expression` — over a faithful model of the
fragment of the (2016-era) `libsyntax` AST that the code touches:
`StmtKind::{Decl, Expr, Semi, Mac}`, `ExprKind::{While, Loop, ForLoop, If,
Call, ...}`, `Block` (statement list plus optional trailing expression),
`FnDecl`, `Item`, `Annotatable`.

Payloads the transformer never inspects (declaration contents, macro
statements, patterns, generics, attrs, spans, node ids) are modelled as
opaque `Nat`/`String` fields so that distinct source nodes stay
distinguishable.  The `quote_stmt!` / `quote_ty!` / `quote_arg!` templates of
the source are embedded as explicit node builders, one per template.
Library helpers of `libsyntax` used by the code are embedded after their
documented behaviour: `cx.stmt_expr(e)` builds `StmtKind::Semi(e, DUMMY)`
respanned at `e`; `cx.block`/`cx.expr`/`cx.fn_decl`/`cx.item` rebuild nodes
from the given parts; `Annotatable::expect_item` panics (here: `none`) on a
non-item annotatable.
-/

namespace RustAsync

mutual

inductive Expr : Type where
  | mk (span : Nat) (node : ExprKind)
  deriving Repr

inductive ExprKind : Type where
  | While (cond : Expr) (body : Block) (label : Option Nat)
  | Loop (body : Block) (label : Option Nat)
  | ForLoop (pat : Nat) (iter : Expr) (body : Block) (label : Option Nat)
  | If (cond : Expr) (thenB : Block) (elseE : Option Expr)
  | Call (func : Expr) (args : List Expr)
  | Block (b : Block)
  | Paren (e : Expr)
  | Path (name : String)
  | Lit (n : Nat)
  | LitBool (b : Bool)
  | Other (k : Nat)
  deriving Repr

inductive StmtKind : Type where
  | Decl (d : Nat) (id : Nat)
  | Expr (e : Expr) (id : Nat)
  | Semi (e : Expr) (id : Nat)
  | Mac (m : Nat) (id : Nat)
  deriving Repr

inductive Stmt : Type where
  | mk (span : Nat) (node : StmtKind)
  deriving Repr

inductive Block : Type where
  | mk (span : Nat) (stmts : List Stmt) (expr : Option Expr)
  deriving Repr

end

def Expr.span : Expr → Nat
  | .mk s _ => s

def Expr.node : Expr → ExprKind
  | .mk _ n => n

def Stmt.span : Stmt → Nat
  | .mk s _ => s

def Stmt.node : Stmt → StmtKind
  | .mk _ n => n

def Block.span : Block → Nat
  | .mk s _ _ => s

def Block.stmts : Block → List Stmt
  | .mk _ s _ => s

def Block.expr : Block → Option Expr
  | .mk _ _ e => e

/-- The reserved name of the synthesized continuation parameter,
`_gen_async_fn_final_callback` in the source. -/
def callbackName : String := "_gen_async_fn_final_callback"

/-- The path expression naming the continuation, as produced by the quote
templates (synthesized nodes carry the dummy span `0`). -/
def callbackPath : Expr := .mk 0 (.Path callbackName)

/-- Embedding of `quote_stmt!(cx, _gen_async_fn_final_callback({ 1234 }))`:
the placeholder continuation invocation used when a `Decl` statement ends the
sequence.  Its argument is the block `{ 1234 }` (no statements, trailing
literal `1234`). -/
def callbackPlaceholderStmt : Stmt :=
  .mk 0 (.Expr (.mk 0 (.Call callbackPath
    [.mk 0 (.Block (.mk 0 [] (some (.mk 0 (.Lit 1234)))))])) 0)

/-- Embedding of
`quote_stmt!(cx, { $stmt if (true) { $stmts_inside_cb } })`:
a single block statement holding the interpolated statement followed by the
always-true conditional whose branch block holds the inner sequence.  The
final `if` of the outer block, having no semicolon, is the block's trailing
expression. -/
def declWrapStmt (stmt : Stmt) (inner : List Stmt) : Stmt :=
  .mk 0 (.Expr (.mk 0 (.Block (.mk 0 [stmt]
    (some (.mk 0 (.If (.mk 0 (.Paren (.mk 0 (.LitBool true))))
      (.mk 0 inner none) none)))))) 0)

/-- Embedding of `quote_stmt!(cx, _gen_async_fn_final_callback({$stmt}))`:
the continuation invocation synthesized for the last statement of a
sequence; its argument is the block `{ $stmt }`. -/
def callbackLastStmt (stmt : Stmt) : Stmt :=
  .mk 0 (.Expr (.mk 0 (.Call callbackPath
    [.mk 0 (.Block (.mk 0 [stmt] none))])) 0)

/-- Embedding of `cx.stmt_expr(e)` (`AstBuilder::stmt_expr`), which builds
`respan(e.span, StmtKind::Semi(e, DUMMY_NODE_ID))`. -/
def stmt_expr (e : Expr) : Stmt := .mk e.span (.Semi e 0)

mutual

/-- Embedding of `handle_statements` (src/src/lib.rs lines 85–132): the
statement-sequence transformer. -/
def handle_statements : List Stmt → List Stmt
  | [] => []
  | Stmt.mk sspan snode :: stmts_below =>
    match snode with
    | StmtKind.Decl d i =>
      -- If this is the last async statement we invoke the Future's callback
      let stmts_inside_cb :=
        if stmts_below.isEmpty then [callbackPlaceholderStmt]
        else handle_statements stmts_below
      [declWrapStmt (Stmt.mk sspan (StmtKind.Decl d i)) stmts_inside_cb]
    | StmtKind.Expr e _ =>
      let stmt := stmt_expr (handle_expression e)
      match stmts_below.isEmpty with
      | false => stmt :: handle_statements stmts_below
      | true => [callbackLastStmt stmt]
    | StmtKind.Semi e _ =>
      let stmt := stmt_expr (handle_expression e)
      match stmts_below.isEmpty with
      | false => stmt :: handle_statements stmts_below
      | true => [callbackLastStmt stmt]
    | StmtKind.Mac m i =>
      -- `_ => stmt.clone()` in the source: unrecognized statement shapes
      let stmt := Stmt.mk sspan (StmtKind.Mac m i)
      match stmts_below.isEmpty with
      | false => stmt :: handle_statements stmts_below
      | true => [callbackLastStmt stmt]

/-- Embedding of `handle_expression` (src/src/lib.rs lines 134–154): the
expression transformer. -/
def handle_expression : Expr → Expr
  | Expr.mk span node =>
    let node' :=
      match node with
      | ExprKind.While cond (Block.mk bspan bstmts bexpr) label =>
        ExprKind.While cond
          (Block.mk bspan (handle_statements bstmts) bexpr) label
      | ExprKind.Call func args => ExprKind.Call func args
      | n => n
    Expr.mk span node'

end

/-- Types, as far as the transformer looks at them.  `Unit` embeds
`quote_ty!(cx, ())`; `FnOnceRef t` embeds the type `&FnOnce(t)` of the
synthesized continuation parameter. -/
inductive Ty : Type where
  | Unit
  | FnOnceRef (arg : Ty)
  | Named (s : String)
  | Other (k : Nat)
  deriving Repr, DecidableEq

/-- Embedding of `syntax::ast::FunctionRetTy` of the era: `None(Span)` (diverging),
`Default(Span)` and `Ty(P<Ty>)`. -/
inductive FunctionRetTy : Type where
  | NoRet (span : Nat)
  | Default (span : Nat)
  | Ty (t : Ty)
  deriving Repr, DecidableEq

/-- A function argument: name and type (the rest of `ast::Arg` is opaque to
the transformer). -/
structure Arg : Type where
  name : String
  ty : Ty
  deriving Repr, DecidableEq

/-- Embedding of `ast::FnDecl`: inputs and output type. -/
structure FnDecl : Type where
  inputs : List Arg
  output : FunctionRetTy
  deriving Repr, DecidableEq

/-- Embedding of `ast::ItemKind`, split into the one shape the code matches
(`ItemKind::Fn(dec, unsafety, constness, abi, generics, block)`) and an
opaque remainder for every other item kind. -/
inductive ItemKind : Type where
  | Fn (dec : FnDecl) (unsafety : Nat) (constness : Nat) (abi : Nat)
       (generics : Nat) (block : Block)
  | OtherItem (k : Nat)

/-- Embedding of `ast::Item`: span, identifier, attributes (opaque) and kind. -/
structure Item : Type where
  span : Nat
  ident : String
  attrs : Nat
  node : ItemKind

/-- Embedding of `syntax::ext::base::Annotatable`: the input domain of a
`MultiModifier`.  Besides items, the host also hands trait items and impl
items to attribute modifiers; the code never looks inside those, so their
payloads are opaque. -/
inductive Annotatable : Type where
  | Item (i : Item)
  | TraitItem (t : Nat)
  | ImplItem (t : Nat)

/-- Embedding of `Annotatable::expect_item`, which panics (modelled as `none`) unless the
annotatable is an `Item`. -/
def expect_item : Annotatable → Option Item
  | .Item i => some i
  | _ => none

/-- The diagnostic text of the `InvalidTarget` error. -/
def asyncErrMsg : String := "The async annotation only works on functions."

/-- Embedding of `quote_arg!(cx, _gen_async_fn_final_callback: &FnOnce($ty))`. -/
def callbackArg (t : Ty) : Arg := ⟨callbackName, Ty.FnOnceRef t⟩

/-- Embedding of `async_attribute` (src/src/lib.rs lines 44–82), the entry
point registered for the `async` attribute.  The result is `none` when the
code panics (`expect_item` on a non-item annotatable); otherwise it is the
returned annotatable paired with the list of `(span, message)` diagnostics
emitted through `cx.span_err`. -/
def async_attribute (span : Nat) (annotable : Annotatable) :
    Option (Annotatable × List (Nat × String)) :=
  match expect_item annotable with
  | none => none
  | some item =>
    match item.node with
    | ItemKind.Fn dec unsafety constness abi generics block =>
      -- Recursively modify statements
      let stmts := handle_statements block.stmts
      let block := Block.mk block.span stmts block.expr
      let ty :=
        match dec.output with
        | FunctionRetTy.Ty t => t
        | _ => Ty.Unit
      let inputs := dec.inputs ++ [callbackArg ty]
      let dec : FnDecl := ⟨inputs, FunctionRetTy.Ty Ty.Unit⟩
      let item_fn := ItemKind.Fn dec unsafety constness abi generics block
      some (Annotatable.Item ⟨item.span, item.ident, item.attrs, item_fn⟩, [])
    | _ => some (annotable, [(span, asyncErrMsg)])

/-! ### Example nodes used by the scenario computations -/

/-- Example expression `f()`. -/
def exF : Expr := .mk 21 (.Call (.mk 31 (.Path "f")) [])

/-- Example statement `let x = f();` — a `Decl` statement (contents opaque to the transform). -/
def exDecl : Stmt := .mk 1 (.Decl 10 11)

/-- Example expression `g()`. -/
def exG : Expr := .mk 2 (.Call (.mk 32 (.Path "g")) [])

/-- Example statement `g();`. -/
def exStmtG : Stmt := .mk 3 (.Semi exG 12)

/-- Example expression `h()`. -/
def exH : Expr := .mk 4 (.Call (.mk 33 (.Path "h")) [])

/-- Example statement `h();`. -/
def exStmtH : Stmt := .mk 5 (.Semi exH 13)

/-- A macro statement: a statement shape that is neither `Decl` nor
`Expr`/`Semi`. -/
def exMac : Stmt := .mk 6 (.Mac 30 14)

/-- The expression transformer never changes a node's span. -/
theorem handle_expression_span (e : Expr) :
    (handle_expression e).span = e.span := by
  cases e
  rfl

/-- A helper name for the inner return type computed by `async_attribute`:
the declared return type when there is one, `()` otherwise. -/
def innerRetTy : FunctionRetTy → Ty
  | FunctionRetTy.Ty t => t
  | _ => Ty.Unit

/-! ### Claims -/

/-- C1: When the first statement of a sequence is a `Decl` binding, the
statement-sequence transformer emits exactly one output statement: a block
holding the original binding followed, in that same scope, by an
always-true conditional whose branch body is the inner sequence — the
recursive transform of the remaining statements when there are any, and a
single synthesized invocation of the continuation marker with the fixed
placeholder value `{ 1234 }` when there are none.  In particular the input
body `[let x = f(); g();]` produces
`[{ let x = f(); if (true) { _gen_async_fn_final_callback({g();}); } }]`. -/
theorem c1_decl_binding_rewrite :
    (∀ (sspan d i : Nat) (stmts_below : List Stmt),
      handle_statements (Stmt.mk sspan (StmtKind.Decl d i) :: stmts_below) =
        [Stmt.mk 0 (StmtKind.Expr (Expr.mk 0 (ExprKind.Block (Block.mk 0
          [Stmt.mk sspan (StmtKind.Decl d i)]
          (some (Expr.mk 0 (ExprKind.If
            (Expr.mk 0 (ExprKind.Paren (Expr.mk 0 (ExprKind.LitBool true))))
            (Block.mk 0
              (if stmts_below.isEmpty then
                [Stmt.mk 0 (StmtKind.Expr (Expr.mk 0 (ExprKind.Call
                  (Expr.mk 0 (ExprKind.Path "_gen_async_fn_final_callback"))
                  [Expr.mk 0 (ExprKind.Block (Block.mk 0 []
                    (some (Expr.mk 0 (ExprKind.Lit 1234)))))])) 0)]
              else handle_statements stmts_below)
              none)
            none)))))) 0)]) ∧
    handle_statements [exDecl, exStmtG] =
      [Stmt.mk 0 (StmtKind.Expr (Expr.mk 0 (ExprKind.Block (Block.mk 0
        [Stmt.mk 1 (StmtKind.Decl 10 11)]
        (some (Expr.mk 0 (ExprKind.If
          (Expr.mk 0 (ExprKind.Paren (Expr.mk 0 (ExprKind.LitBool true))))
          (Block.mk 0
            [Stmt.mk 0 (StmtKind.Expr (Expr.mk 0 (ExprKind.Call
              (Expr.mk 0 (ExprKind.Path "_gen_async_fn_final_callback"))
              [Expr.mk 0 (ExprKind.Block (Block.mk 0
                [Stmt.mk 2 (StmtKind.Semi exG 0)] none))])) 0)]
            none)
          none)))))) 0)] :=
  ⟨fun _ _ _ _ => rfl, rfl⟩

/-- C2: For a sequence starting with an `ExpressionStatement`
(`StmtKind::Expr` or `StmtKind::Semi`): with statements remaining, the
output is the transformed statement (the transformed expression rebuilt by
`cx.stmt_expr` at the expression's span) followed by the recursive
transform of the remainder, with no extra nesting; as the last statement,
the output is the single synthesized continuation invocation whose argument
block carries the transformed expression; the empty sequence maps to the
empty sequence; and `[g(); h();]` maps to
`[g(); _gen_async_fn_final_callback({h();});]`. -/
theorem c2_expr_statement_rewrite :
    (∀ (sspan i : Nat) (e : Expr) (r : Stmt) (rs : List Stmt),
      handle_statements (Stmt.mk sspan (StmtKind.Semi e i) :: r :: rs) =
        Stmt.mk e.span (StmtKind.Semi (handle_expression e) 0)
          :: handle_statements (r :: rs)) ∧
    (∀ (sspan i : Nat) (e : Expr) (r : Stmt) (rs : List Stmt),
      handle_statements (Stmt.mk sspan (StmtKind.Expr e i) :: r :: rs) =
        Stmt.mk e.span (StmtKind.Semi (handle_expression e) 0)
          :: handle_statements (r :: rs)) ∧
    (∀ (sspan i : Nat) (e : Expr),
      handle_statements [Stmt.mk sspan (StmtKind.Semi e i)] =
        [Stmt.mk 0 (StmtKind.Expr (Expr.mk 0 (ExprKind.Call
          (Expr.mk 0 (ExprKind.Path "_gen_async_fn_final_callback"))
          [Expr.mk 0 (ExprKind.Block (Block.mk 0
            [Stmt.mk e.span (StmtKind.Semi (handle_expression e) 0)]
            none))])) 0)]) ∧
    (∀ (sspan i : Nat) (e : Expr),
      handle_statements [Stmt.mk sspan (StmtKind.Expr e i)] =
        [Stmt.mk 0 (StmtKind.Expr (Expr.mk 0 (ExprKind.Call
          (Expr.mk 0 (ExprKind.Path "_gen_async_fn_final_callback"))
          [Expr.mk 0 (ExprKind.Block (Block.mk 0
            [Stmt.mk e.span (StmtKind.Semi (handle_expression e) 0)]
            none))])) 0)]) ∧
    handle_statements [] = [] ∧
    handle_statements [exStmtG, exStmtH] =
      [Stmt.mk 2 (StmtKind.Semi exG 0),
       Stmt.mk 0 (StmtKind.Expr (Expr.mk 0 (ExprKind.Call
         (Expr.mk 0 (ExprKind.Path "_gen_async_fn_final_callback"))
         [Expr.mk 0 (ExprKind.Block (Block.mk 0
           [Stmt.mk 4 (StmtKind.Semi exH 0)] none))])) 0)] := by
  refine ⟨fun sspan i e r rs => ?_, fun sspan i e r rs => ?_,
          fun sspan i e => ?_, fun sspan i e => ?_, rfl, rfl⟩ <;>
    simp only [handle_statements, stmt_expr, handle_expression_span,
      List.isEmpty_cons, List.isEmpty_nil, callbackLastStmt, callbackPath,
      callbackName]

/-- C3: On a function item, `async_attribute` rebuilds the function so
that its parameter list is the original list with exactly one parameter
appended — `_gen_async_fn_final_callback : &FnOnce(T)` where `T` is the
declared return type if one is declared and `()` otherwise — and its
declared return type is `()`; hence the new parameter count is the original
count plus one. -/
theorem c3_arity_plus_one (span : Nat) (item : Item) (dec : FnDecl)
    (u c a g : Nat) (block : Block)
    (h : item.node = ItemKind.Fn dec u c a g block) :
    async_attribute span (Annotatable.Item item) =
      some (Annotatable.Item ⟨item.span, item.ident, item.attrs,
        ItemKind.Fn
          (FnDecl.mk
            (dec.inputs ++ [Arg.mk "_gen_async_fn_final_callback"
              (Ty.FnOnceRef (innerRetTy dec.output))])
            (FunctionRetTy.Ty Ty.Unit))
          u c a g
          (Block.mk block.span (handle_statements block.stmts) block.expr)⟩,
        []) ∧
    (dec.inputs ++ [Arg.mk "_gen_async_fn_final_callback"
        (Ty.FnOnceRef (innerRetTy dec.output))]).length
      = dec.inputs.length + 1 ∧
    (dec.inputs ++ [Arg.mk "_gen_async_fn_final_callback"
        (Ty.FnOnceRef (innerRetTy dec.output))]).getLast?
      = some (Arg.mk "_gen_async_fn_final_callback"
          (Ty.FnOnceRef (innerRetTy dec.output))) ∧
    (∀ t, dec.output = FunctionRetTy.Ty t → innerRetTy dec.output = t) ∧
    (∀ s, dec.output = FunctionRetTy.Default s → innerRetTy dec.output = Ty.Unit) ∧
    (∀ s, dec.output = FunctionRetTy.NoRet s → innerRetTy dec.output = Ty.Unit) := by
  refine ⟨?_, by simp, by simp, ?_, ?_, ?_⟩
  · simp only [async_attribute, expect_item, h, callbackArg, callbackName,
      innerRetTy]
  · intro t ht; rw [ht]; rfl
  · intro s hs; rw [hs]; rfl
  · intro s hs; rw [hs]; rfl

/-- Witness for C3 at a concrete function item: `fn demo(a: A) -> R { }`
becomes `fn demo(a: A, _gen_async_fn_final_callback: &FnOnce(R)) -> () { }`. -/
theorem c3_arity_plus_one_witness :
    async_attribute 9 (Annotatable.Item ⟨7, "demo", 8,
        ItemKind.Fn ⟨[⟨"a", Ty.Named "A"⟩], FunctionRetTy.Ty (Ty.Named "R")⟩
          0 0 0 0 (Block.mk 6 [] none)⟩) =
      some (Annotatable.Item ⟨7, "demo", 8,
        ItemKind.Fn
          ⟨[⟨"a", Ty.Named "A"⟩,
            ⟨"_gen_async_fn_final_callback", Ty.FnOnceRef (Ty.Named "R")⟩],
           FunctionRetTy.Ty Ty.Unit⟩
          0 0 0 0 (Block.mk 6 [] none)⟩, []) := by
  have h := c3_arity_plus_one 9
    ⟨7, "demo", 8,
      ItemKind.Fn ⟨[⟨"a", Ty.Named "A"⟩], FunctionRetTy.Ty (Ty.Named "R")⟩
        0 0 0 0 (Block.mk 6 [] none)⟩
    ⟨[⟨"a", Ty.Named "A"⟩], FunctionRetTy.Ty (Ty.Named "R")⟩
    0 0 0 0 (Block.mk 6 [] none) rfl
  exact h.1

/-- C6: The expression transformer rebuilds a `While` loop with the
same condition, the same label and the same block metadata (span and
trailing expression), its statement list replaced by the statement-sequence
transformer applied to that list — so transforming a loop body is the very
same function application as transforming a top-level sequence; it is the
identity on `Call` expressions and on every other expression shape. -/
theorem c6_expression_transformer :
    (∀ (span : Nat) (cond : Expr) (bspan : Nat) (bstmts : List Stmt)
        (bexpr : Option Expr) (label : Option Nat),
      handle_expression
          (Expr.mk span (ExprKind.While cond (Block.mk bspan bstmts bexpr) label))
        = Expr.mk span
            (ExprKind.While cond
              (Block.mk bspan (handle_statements bstmts) bexpr) label)) ∧
    (∀ (span : Nat) (func : Expr) (args : List Expr),
      handle_expression (Expr.mk span (ExprKind.Call func args)) =
        Expr.mk span (ExprKind.Call func args)) ∧
    (∀ (span : Nat) (node : ExprKind),
      (∀ cond body label, node ≠ ExprKind.While cond body label) →
        handle_expression (Expr.mk span node) = Expr.mk span node) := by
  refine ⟨fun _ _ _ _ _ _ => rfl, fun _ _ _ => rfl, fun span node h => ?_⟩
  cases node <;> first
    | exact absurd rfl (h _ _ _)
    | rfl

/-- Witness for C6: the third conjunct applied to a literal expression,
whose shape is not a `While` loop, leaves it unchanged. -/
theorem c6_expression_transformer_witness :
    handle_expression (Expr.mk 7 (ExprKind.Lit 3)) = Expr.mk 7 (ExprKind.Lit 3) :=
  c6_expression_transformer.2.2 7 (ExprKind.Lit 3)
    (fun _ _ _ h => ExprKind.noConfusion h)

/-- C7 counterexample: The claim quantifies over every non-function
input node, but on a non-item annotatable (here: a trait item) the entry
point calls `Annotatable::expect_item`, which panics (modelled as `none`)
before any check runs — so the pass aborts instead of emitting one
diagnostic and returning the node unchanged. -/
theorem c7_non_item_panics :
    async_attribute 0 (Annotatable.TraitItem 0) = none ∧
    ¬ ∃ msgs, async_attribute 0 (Annotatable.TraitItem 0) =
        some (Annotatable.TraitItem 0, msgs) := by
  refine ⟨rfl, ?_⟩
  rintro ⟨msgs, h⟩
  simp [async_attribute, expect_item] at h

/-- C7 amended: For every input *item* that is not a function item,
the entry point emits exactly one diagnostic — `InvalidTarget`, naming the
constraint — and returns the input annotatable unchanged, without aborting
the pass. -/
theorem c7_invalid_target_on_items (span : Nat) (item : Item) (k : Nat)
    (h : item.node = ItemKind.OtherItem k) :
    async_attribute span (Annotatable.Item item) =
      some (Annotatable.Item item, [(span, asyncErrMsg)]) := by
  simp only [async_attribute, expect_item, h]

/-- Witness for the amended C7 at a concrete non-function item. -/
theorem c7_invalid_target_on_items_witness :
    async_attribute 5 (Annotatable.Item ⟨1, "s", 2, ItemKind.OtherItem 3⟩) =
      some (Annotatable.Item ⟨1, "s", 2, ItemKind.OtherItem 3⟩,
        [(5, asyncErrMsg)]) :=
  c7_invalid_target_on_items 5 ⟨1, "s", 2, ItemKind.OtherItem 3⟩ 3 rfl

/-- C8: A statement whose shape is neither a `Decl` binding nor an
expression statement (here: a macro statement, the only other shape) is
passed into the output as an unchanged clone in every position: in a
non-last position the output statement is the clone itself, and in the last
position the clone — untouched, with no expression transformation applied —
is the sole payload of the synthesized tail continuation invocation that
every sequence end receives.  `handle_statements` emits no diagnostic on it
(the embedding shows the transformer has no diagnostic channel at all; the
only `span_err` in the crate is the `InvalidTarget` arm of
`async_attribute`). -/
theorem c8_unrecognized_passthrough :
    (∀ (sspan m i : Nat) (r : Stmt) (rs : List Stmt),
      handle_statements (Stmt.mk sspan (StmtKind.Mac m i) :: r :: rs) =
        Stmt.mk sspan (StmtKind.Mac m i) :: handle_statements (r :: rs)) ∧
    (∀ (sspan m i : Nat),
      handle_statements [Stmt.mk sspan (StmtKind.Mac m i)] =
        [Stmt.mk 0 (StmtKind.Expr (Expr.mk 0 (ExprKind.Call
          (Expr.mk 0 (ExprKind.Path "_gen_async_fn_final_callback"))
          [Expr.mk 0 (ExprKind.Block (Block.mk 0
            [Stmt.mk sspan (StmtKind.Mac m i)] none))])) 0)]) ∧
    handle_statements [exStmtG, exMac, exStmtH] =
      [Stmt.mk 2 (StmtKind.Semi exG 0),
       Stmt.mk 6 (StmtKind.Mac 30 14),
       Stmt.mk 0 (StmtKind.Expr (Expr.mk 0 (ExprKind.Call
         (Expr.mk 0 (ExprKind.Path "_gen_async_fn_final_callback"))
         [Expr.mk 0 (ExprKind.Block (Block.mk 0
           [Stmt.mk 4 (StmtKind.Semi exH 0)] none))])) 0)] :=
  ⟨fun _ _ _ _ _ => rfl, fun _ _ _ => rfl, rfl⟩

/-- Is this statement an invocation of the continuation marker (a call
statement whose callee is the reserved callback path)? -/
def isCallbackInvocation : Stmt → Bool
  | .mk _ (.Expr (.mk _ (.Call (.mk _ (.Path f)) _)) _) => f == callbackName
  | _ => false

mutual

/-- The final reachable statement of a statement sequence: take the last
statement; while it is a scope wrapper of the shape synthesized for `Decl`
bindings — a block statement whose trailing expression is a conditional —
descend into the conditional's branch body. -/
def finalStmt : List Stmt → Option Stmt
  | [] => none
  | [s] => finalOfStmt s
  | _ :: s₂ :: rest => finalStmt (s₂ :: rest)

/-- The final reachable statement at a single last statement: descend
through a scope-wrapper block into its trailing conditional's branch body;
any other statement is itself final. -/
def finalOfStmt : Stmt → Option Stmt
  | Stmt.mk _ (StmtKind.Expr (Expr.mk _ (ExprKind.Block (Block.mk _ _
      (some (Expr.mk _ (ExprKind.If _ (Block.mk _ inner _) _)))))) _) =>
      finalStmt inner
  | s => some s

end

/-- The transform of a non-empty sequence is non-empty. -/
theorem handle_statements_ne_nil (s : Stmt) (rest : List Stmt) :
    handle_statements (s :: rest) ≠ [] := by
  obtain ⟨sspan, snode⟩ := s
  cases snode <;> cases hb : rest.isEmpty <;>
    simp [handle_statements, hb]

/-- C4: For every non-empty input statement sequence, the final
reachable point of the transformed sequence — its last statement, followed
through the nested scopes the `Decl` wrappers introduce — is a single
invocation of the continuation marker.  Since a transformed nested body is
itself `handle_statements` of its sequence (C6), the same statement applies
to the tail inside each transformed nested body. -/
theorem c4_tail_continuation (stmts : List Stmt) (h : stmts ≠ []) :
    ∃ s, finalStmt (handle_statements stmts) = some s ∧
      isCallbackInvocation s = true := by
  induction stmts with
  | nil => exact absurd rfl h
  | cons s rest ih =>
    obtain ⟨sspan, snode⟩ := s
    cases snode with
    | Decl d i =>
      cases rest with
      | nil => exact ⟨callbackPlaceholderStmt, rfl, rfl⟩
      | cons r rs =>
        obtain ⟨t, ht, hcb⟩ := ih (by simp)
        refine ⟨t, ?_, hcb⟩
        have hrw : handle_statements (Stmt.mk sspan (StmtKind.Decl d i) :: r :: rs)
            = [declWrapStmt (Stmt.mk sspan (StmtKind.Decl d i))
                (handle_statements (r :: rs))] := rfl
        rw [hrw]
        have hfin : finalStmt [declWrapStmt (Stmt.mk sspan (StmtKind.Decl d i))
            (handle_statements (r :: rs))]
            = finalStmt (handle_statements (r :: rs)) := rfl
        rw [hfin, ht]
    | Expr e i =>
      cases rest with
      | nil => exact ⟨callbackLastStmt (stmt_expr (handle_expression e)), rfl, rfl⟩
      | cons r rs =>
        obtain ⟨t, ht, hcb⟩ := ih (by simp)
        refine ⟨t, ?_, hcb⟩
        cases hh : handle_statements (r :: rs) with
        | nil => exact absurd hh (handle_statements_ne_nil r rs)
        | cons u us =>
          have hrw : handle_statements (Stmt.mk sspan (StmtKind.Expr e i) :: r :: rs)
              = stmt_expr (handle_expression e) :: handle_statements (r :: rs) := rfl
          rw [hrw, hh]
          have : finalStmt (stmt_expr (handle_expression e) :: u :: us)
              = finalStmt (u :: us) := rfl
          rw [this, ← hh, ht]
    | Semi e i =>
      cases rest with
      | nil => exact ⟨callbackLastStmt (stmt_expr (handle_expression e)), rfl, rfl⟩
      | cons r rs =>
        obtain ⟨t, ht, hcb⟩ := ih (by simp)
        refine ⟨t, ?_, hcb⟩
        cases hh : handle_statements (r :: rs) with
        | nil => exact absurd hh (handle_statements_ne_nil r rs)
        | cons u us =>
          have hrw : handle_statements (Stmt.mk sspan (StmtKind.Semi e i) :: r :: rs)
              = stmt_expr (handle_expression e) :: handle_statements (r :: rs) := rfl
          rw [hrw, hh]
          have : finalStmt (stmt_expr (handle_expression e) :: u :: us)
              = finalStmt (u :: us) := rfl
          rw [this, ← hh, ht]
    | Mac m i =>
      cases rest with
      | nil => exact ⟨callbackLastStmt (Stmt.mk sspan (StmtKind.Mac m i)), rfl, rfl⟩
      | cons r rs =>
        obtain ⟨t, ht, hcb⟩ := ih (by simp)
        refine ⟨t, ?_, hcb⟩
        cases hh : handle_statements (r :: rs) with
        | nil => exact absurd hh (handle_statements_ne_nil r rs)
        | cons u us =>
          have hrw : handle_statements (Stmt.mk sspan (StmtKind.Mac m i) :: r :: rs)
              = Stmt.mk sspan (StmtKind.Mac m i) :: handle_statements (r :: rs) := rfl
          rw [hrw, hh]
          have : finalStmt (Stmt.mk sspan (StmtKind.Mac m i) :: u :: us)
              = finalStmt (u :: us) := rfl
          rw [this, ← hh, ht]

/-- Witness for C4: the transform of the two-statement body
`[let x = f(); g();]` finally reaches one invocation of the continuation
marker. -/
theorem c4_tail_continuation_witness :
    ∃ s, finalStmt (handle_statements [exDecl, exStmtG]) = some s ∧
      isCallbackInvocation s = true :=
  c4_tail_continuation [exDecl, exStmtG] (by simp)

/-- The per-statement rewrite that `handle_statements` applies to an
original statement before placing it in the output: `Decl` bindings and
unrecognized (`Mac`) statements are cloned unchanged; `Expr`/`Semi`
expression statements are rebuilt by `cx.stmt_expr` around their
transformed expression. -/
def normalizeStmt : Stmt → Stmt
  | .mk _ (.Expr e _) => stmt_expr (handle_expression e)
  | .mk _ (.Semi e _) => stmt_expr (handle_expression e)
  | s => s

mutual

/-- Strip the scaffolding `handle_statements` adds, recovering the
statements it placed, in order: a `Decl` scope wrapper yields its binding
followed by the statements recovered from the conditional's branch body;
the placeholder continuation invocation (argument block `{ 1234 }`) yields
nothing; a tail continuation invocation (argument block `{ $stmt }`) yields
its payload statement; every other statement yields itself. -/
def stripOutput : List Stmt → List Stmt
  | [] => []
  | s :: rest => stripStmt s ++ stripOutput rest

/-- The statements recovered from one output statement (see
`stripOutput`). -/
def stripStmt : Stmt → List Stmt
  | Stmt.mk _ (StmtKind.Expr (Expr.mk _ (ExprKind.Block (Block.mk _ [d]
      (some (Expr.mk _ (ExprKind.If _ (Block.mk _ inner _) _)))))) _) =>
      d :: stripOutput inner
  | Stmt.mk _ (StmtKind.Expr (Expr.mk _ (ExprKind.Call
      (Expr.mk _ (ExprKind.Path "_gen_async_fn_final_callback"))
      [Expr.mk _ (ExprKind.Block (Block.mk _ [] (some _)))])) _) =>
      []
  | Stmt.mk _ (StmtKind.Expr (Expr.mk _ (ExprKind.Call
      (Expr.mk _ (ExprKind.Path "_gen_async_fn_final_callback"))
      [Expr.mk _ (ExprKind.Block (Block.mk _ [s1] none))])) _) =>
      [s1]
  | s => [s]

end

theorem stripStmt_declWrap (s : Stmt) (inner : List Stmt) :
    stripStmt (declWrapStmt s inner) = s :: stripOutput inner := rfl

theorem stripStmt_callbackLast (s : Stmt) :
    stripStmt (callbackLastStmt s) = [s] := rfl

theorem stripStmt_placeholder : stripStmt callbackPlaceholderStmt = [] := rfl

theorem stripStmt_stmt_expr (e : Expr) :
    stripStmt (stmt_expr e) = [stmt_expr e] := rfl

theorem stripStmt_mac (sspan m i : Nat) :
    stripStmt (Stmt.mk sspan (StmtKind.Mac m i)) =
      [Stmt.mk sspan (StmtKind.Mac m i)] := rfl

theorem stripOutput_nil : stripOutput [] = [] := rfl

theorem stripOutput_cons (s : Stmt) (rest : List Stmt) :
    stripOutput (s :: rest) = stripStmt s ++ stripOutput rest := rfl

theorem normalizeStmt_decl (sspan d i : Nat) :
    normalizeStmt (Stmt.mk sspan (StmtKind.Decl d i)) =
      Stmt.mk sspan (StmtKind.Decl d i) := rfl

theorem normalizeStmt_expr (sspan i : Nat) (e : Expr) :
    normalizeStmt (Stmt.mk sspan (StmtKind.Expr e i)) =
      stmt_expr (handle_expression e) := rfl

theorem normalizeStmt_semi (sspan i : Nat) (e : Expr) :
    normalizeStmt (Stmt.mk sspan (StmtKind.Semi e i)) =
      stmt_expr (handle_expression e) := rfl

theorem normalizeStmt_mac (sspan m i : Nat) :
    normalizeStmt (Stmt.mk sspan (StmtKind.Mac m i)) =
      Stmt.mk sspan (StmtKind.Mac m i) := rfl

/-- C5: Every original statement appears exactly once in the
transformed output, in the original relative order, with no reordering,
duplication or loss: stripping the added wrapper scopes and the synthesized
continuation invocations from the output recovers exactly the input
statements in order, each in the form `normalizeStmt` describes (`Decl` and
unrecognized statements verbatim, expression statements carrying their
transformed expression).  In particular the recovered list has the input's
length. -/
theorem c5_statement_conservation :
    (∀ stmts : List Stmt,
      stripOutput (handle_statements stmts) = stmts.map normalizeStmt) ∧
    (∀ stmts : List Stmt,
      (stripOutput (handle_statements stmts)).length = stmts.length) ∧
    stripOutput (handle_statements [exDecl, exStmtG, exMac]) =
      [exDecl, Stmt.mk 2 (StmtKind.Semi exG 0), exMac] := by
  have main : ∀ stmts : List Stmt,
      stripOutput (handle_statements stmts) = stmts.map normalizeStmt := by
    intro stmts
    induction stmts with
    | nil => rfl
    | cons s rest ih =>
      obtain ⟨sspan, snode⟩ := s
      cases snode <;> cases rest <;>
        simp [handle_statements, stripOutput_cons, stripOutput_nil,
          stripStmt_declWrap, stripStmt_callbackLast, stripStmt_placeholder,
          stripStmt_stmt_expr, stripStmt_mac, normalizeStmt_decl,
          normalizeStmt_expr, normalizeStmt_semi, normalizeStmt_mac, ih]
  refine ⟨main, fun stmts => by rw [main stmts, List.length_map], ?_⟩
  rw [main [exDecl, exStmtG, exMac]]
  rfl

/-- C10: Among the loop forms only `While` loops have their bodies
recursively transformed: `Loop` and `ForLoop` expressions — like `If`
conditionals and every other non-`While` shape — are returned unchanged by
the expression transformer, statement sequences nested inside them
untouched, while a `While` loop's statement list is rewritten by
`handle_statements`. -/
theorem c10_only_while_bodies_transformed :
    (∀ (span bspan : Nat) (bstmts : List Stmt) (bexpr : Option Expr)
        (label : Option Nat),
      handle_expression (Expr.mk span (ExprKind.Loop (Block.mk bspan bstmts bexpr) label))
        = Expr.mk span (ExprKind.Loop (Block.mk bspan bstmts bexpr) label)) ∧
    (∀ (span pat : Nat) (iter : Expr) (bspan : Nat) (bstmts : List Stmt)
        (bexpr : Option Expr) (label : Option Nat),
      handle_expression
          (Expr.mk span (ExprKind.ForLoop pat iter (Block.mk bspan bstmts bexpr) label))
        = Expr.mk span (ExprKind.ForLoop pat iter (Block.mk bspan bstmts bexpr) label)) ∧
    (∀ (span : Nat) (cond : Expr) (thenB : Block) (elseE : Option Expr),
      handle_expression (Expr.mk span (ExprKind.If cond thenB elseE))
        = Expr.mk span (ExprKind.If cond thenB elseE)) ∧
    (∀ (span : Nat) (cond : Expr) (bspan : Nat) (bstmts : List Stmt)
        (bexpr : Option Expr) (label : Option Nat),
      handle_expression
          (Expr.mk span (ExprKind.While cond (Block.mk bspan bstmts bexpr) label))
        = Expr.mk span
            (ExprKind.While cond
              (Block.mk bspan (handle_statements bstmts) bexpr) label)) :=
  ⟨fun _ _ _ _ _ => rfl, fun _ _ _ _ _ _ _ => rfl, fun _ _ _ _ => rfl,
   fun _ _ _ _ _ _ => rfl⟩

mutual

/-- Step-bounded version of `handle_statements` for the termination
argument: every recursive call of the mutual recursion consumes one unit of
fuel, and `none` means the fuel ran out before the recursion bottomed
out. -/
def handle_statements_fuel : Nat → List Stmt → Option (List Stmt)
  | 0, _ => none
  | _ + 1, [] => some []
  | n + 1, Stmt.mk sspan snode :: stmts_below =>
    match snode with
    | StmtKind.Decl d i =>
      (if stmts_below.isEmpty then some [callbackPlaceholderStmt]
       else handle_statements_fuel n stmts_below).map
        fun stmts_inside_cb =>
          [declWrapStmt (Stmt.mk sspan (StmtKind.Decl d i)) stmts_inside_cb]
    | StmtKind.Expr e _ =>
      (handle_expression_fuel n e).bind fun e' =>
        match stmts_below.isEmpty with
        | false => (handle_statements_fuel n stmts_below).map
            fun below => stmt_expr e' :: below
        | true => some [callbackLastStmt (stmt_expr e')]
    | StmtKind.Semi e _ =>
      (handle_expression_fuel n e).bind fun e' =>
        match stmts_below.isEmpty with
        | false => (handle_statements_fuel n stmts_below).map
            fun below => stmt_expr e' :: below
        | true => some [callbackLastStmt (stmt_expr e')]
    | StmtKind.Mac m i =>
      match stmts_below.isEmpty with
      | false => (handle_statements_fuel n stmts_below).map
          fun below => Stmt.mk sspan (StmtKind.Mac m i) :: below
      | true => some [callbackLastStmt (Stmt.mk sspan (StmtKind.Mac m i))]

/-- Step-bounded version of `handle_expression` (see
`handle_statements_fuel`). -/
def handle_expression_fuel : Nat → Expr → Option Expr
  | 0, _ => none
  | n + 1, Expr.mk span node =>
    (match node with
     | ExprKind.While cond (Block.mk bspan bstmts bexpr) label =>
       (handle_statements_fuel n bstmts).map fun stmts =>
         ExprKind.While cond (Block.mk bspan stmts bexpr) label
     | ExprKind.Call func args => some (ExprKind.Call func args)
     | other => some other).map
      fun node' => Expr.mk span node'

end

/-- Fuel equal to the size of the input tree is always enough: the mutual
recursion of the transformer reaches its base cases within `sizeOf`
steps, because every recursive call strictly decreases the size of its
argument (the tail of the statement list, the statement's expression, or a
nested loop body). -/
theorem fuel_adequate (n : Nat) :
    (∀ ss : List Stmt, sizeOf ss ≤ n →
      handle_statements_fuel n ss = some (handle_statements ss)) ∧
    (∀ e : Expr, sizeOf e ≤ n →
      handle_expression_fuel n e = some (handle_expression e)) := by
  induction n with
  | zero =>
    constructor
    · intro ss h
      exfalso
      cases ss <;> simp at h
    · intro e h
      exfalso
      cases e
      simp at h
  | succ n ih =>
    constructor
    · intro ss h
      cases ss with
      | nil => rfl
      | cons s rest =>
        obtain ⟨sspan, snode⟩ := s
        cases snode with
        | Decl d i =>
          cases rest with
          | nil => rfl
          | cons r rs =>
            have hrec : handle_statements_fuel n (r :: rs) =
                some (handle_statements (r :: rs)) := by
              apply ih.1
              simp at h ⊢
              omega
            simp [handle_statements_fuel, handle_statements, hrec]
        | Expr e i =>
          have hexp : handle_expression_fuel n e =
              some (handle_expression e) := by
            apply ih.2
            simp at h ⊢
            omega
          cases rest with
          | nil => simp [handle_statements_fuel, handle_statements, hexp]
          | cons r rs =>
            have hrec : handle_statements_fuel n (r :: rs) =
                some (handle_statements (r :: rs)) := by
              apply ih.1
              simp at h ⊢
              omega
            simp [handle_statements_fuel, handle_statements, hexp, hrec]
        | Semi e i =>
          have hexp : handle_expression_fuel n e =
              some (handle_expression e) := by
            apply ih.2
            simp at h ⊢
            omega
          cases rest with
          | nil => simp [handle_statements_fuel, handle_statements, hexp]
          | cons r rs =>
            have hrec : handle_statements_fuel n (r :: rs) =
                some (handle_statements (r :: rs)) := by
              apply ih.1
              simp at h ⊢
              omega
            simp [handle_statements_fuel, handle_statements, hexp, hrec]
        | Mac m i =>
          cases rest with
          | nil => rfl
          | cons r rs =>
            have hrec : handle_statements_fuel n (r :: rs) =
                some (handle_statements (r :: rs)) := by
              apply ih.1
              simp at h ⊢
              omega
            simp [handle_statements_fuel, handle_statements, hrec]
    · intro e h
      obtain ⟨span, node⟩ := e
      cases node with
      | While cond body label =>
        obtain ⟨bspan, bstmts, bexpr⟩ := body
        have hrec : handle_statements_fuel n bstmts =
            some (handle_statements bstmts) := by
          apply ih.1
          simp at h ⊢
          omega
        simp [handle_expression_fuel, handle_expression, hrec]
      | Call func args => rfl
      | Loop body label => rfl
      | ForLoop pat iter body label => rfl
      | If cond thenB elseE => rfl
      | Block b => rfl
      | Paren e => rfl
      | Path name => rfl
      | Lit k => rfl
      | LitBool b => rfl
      | Other k => rfl

/-- Any run of the step-bounded transformer that completes computes the
same result as the transformer: the recursion is deterministic. -/
theorem fuel_agrees (n : Nat) :
    (∀ (ss : List Stmt) (res : List Stmt),
      handle_statements_fuel n ss = some res → res = handle_statements ss) ∧
    (∀ (e : Expr) (res : Expr),
      handle_expression_fuel n e = some res → res = handle_expression e) := by
  induction n with
  | zero =>
    constructor
    · intro ss res hr
      exact absurd hr (by simp [handle_statements_fuel])
    · intro e res hr
      exact absurd hr (by simp [handle_expression_fuel])
  | succ n ih =>
    constructor
    · intro ss res hr
      cases ss with
      | nil => exact (Option.some.inj hr).symm
      | cons s rest =>
        obtain ⟨sspan, snode⟩ := s
        cases snode with
        | Decl d i =>
          cases rest with
          | nil => exact (Option.some.inj hr).symm
          | cons r rs =>
            have hr' : (handle_statements_fuel n (r :: rs)).map
                (fun inner =>
                  [declWrapStmt (Stmt.mk sspan (StmtKind.Decl d i)) inner])
                = some res := hr
            rw [Option.map_eq_some'] at hr'
            obtain ⟨x, hx, hfx⟩ := hr'
            rw [ih.1 _ _ hx] at hfx
            exact hfx.symm
        | Expr e i =>
          have hr' : (handle_expression_fuel n e).bind
              (fun e' =>
                match (rest : List Stmt).isEmpty with
                | false => (handle_statements_fuel n rest).map
                    fun below => stmt_expr e' :: below
                | true => some [callbackLastStmt (stmt_expr e')])
              = some res := hr
          rw [Option.bind_eq_some] at hr'
          obtain ⟨e', he, hrest⟩ := hr'
          rw [ih.2 _ _ he] at hrest
          cases rest with
          | nil => exact (Option.some.inj hrest).symm
          | cons r rs =>
            have hrest' : (handle_statements_fuel n (r :: rs)).map
                (fun below => stmt_expr (handle_expression e) :: below)
                = some res := hrest
            rw [Option.map_eq_some'] at hrest'
            obtain ⟨x, hx, hfx⟩ := hrest'
            rw [ih.1 _ _ hx] at hfx
            exact hfx.symm
        | Semi e i =>
          have hr' : (handle_expression_fuel n e).bind
              (fun e' =>
                match (rest : List Stmt).isEmpty with
                | false => (handle_statements_fuel n rest).map
                    fun below => stmt_expr e' :: below
                | true => some [callbackLastStmt (stmt_expr e')])
              = some res := hr
          rw [Option.bind_eq_some] at hr'
          obtain ⟨e', he, hrest⟩ := hr'
          rw [ih.2 _ _ he] at hrest
          cases rest with
          | nil => exact (Option.some.inj hrest).symm
          | cons r rs =>
            have hrest' : (handle_statements_fuel n (r :: rs)).map
                (fun below => stmt_expr (handle_expression e) :: below)
                = some res := hrest
            rw [Option.map_eq_some'] at hrest'
            obtain ⟨x, hx, hfx⟩ := hrest'
            rw [ih.1 _ _ hx] at hfx
            exact hfx.symm
        | Mac m i =>
          cases rest with
          | nil => exact (Option.some.inj hr).symm
          | cons r rs =>
            have hr' : (handle_statements_fuel n (r :: rs)).map
                (fun below => Stmt.mk sspan (StmtKind.Mac m i) :: below)
                = some res := hr
            rw [Option.map_eq_some'] at hr'
            obtain ⟨x, hx, hfx⟩ := hr'
            rw [ih.1 _ _ hx] at hfx
            exact hfx.symm
    · intro e res hr
      obtain ⟨span, node⟩ := e
      cases node with
      | While cond body label =>
        obtain ⟨bspan, bstmts, bexpr⟩ := body
        have hr' : ((handle_statements_fuel n bstmts).map
            (fun stmts => ExprKind.While cond (Block.mk bspan stmts bexpr) label)).map
            (fun node' => Expr.mk span node') = some res := hr
        rw [Option.map_eq_some'] at hr'
        obtain ⟨y, hy, hfy⟩ := hr'
        rw [Option.map_eq_some'] at hy
        obtain ⟨x, hx, hfx⟩ := hy
        rw [ih.1 _ _ hx] at hfx
        rw [← hfx] at hfy
        exact hfy.symm
      | Call func args => exact (Option.some.inj hr).symm
      | Loop body label => exact (Option.some.inj hr).symm
      | ForLoop pat iter body label => exact (Option.some.inj hr).symm
      | If cond thenB elseE => exact (Option.some.inj hr).symm
      | Block b => exact (Option.some.inj hr).symm
      | Paren e => exact (Option.some.inj hr).symm
      | Path name => exact (Option.some.inj hr).symm
      | Lit k => exact (Option.some.inj hr).symm
      | LitBool b => exact (Option.some.inj hr).symm
      | Other k => exact (Option.some.inj hr).symm

/-- C9: The two transformers are deterministic total functions on every
finite input tree.  Totality and termination: running the mutual recursion
with a step budget equal to the input's size always completes (every
recursive call strictly decreases the remaining statement list, moves to
the statement's expression, or descends into a finite nested loop body, so
the size bounds the recursion).  Determinism: every completed bounded run,
with any budget whatsoever, returns the one value `handle_statements` /
`handle_expression` computes. -/
theorem c9_total_deterministic :
    (∀ ss : List Stmt,
      handle_statements_fuel (sizeOf ss) ss = some (handle_statements ss)) ∧
    (∀ e : Expr,
      handle_expression_fuel (sizeOf e) e = some (handle_expression e)) ∧
    (∀ (n : Nat) (ss : List Stmt) (res : List Stmt),
      handle_statements_fuel n ss = some res → res = handle_statements ss) ∧
    (∀ (n : Nat) (e : Expr) (res : Expr),
      handle_expression_fuel n e = some res → res = handle_expression e) :=
  ⟨fun ss => (fuel_adequate (sizeOf ss)).1 ss le_rfl,
   fun e => (fuel_adequate (sizeOf e)).2 e le_rfl,
   fun n ss res h => (fuel_agrees n).1 ss res h,
   fun n e res h => (fuel_agrees n).2 e res h⟩

/-- Witness for C9: a bounded run on the concrete body `[g();]` with budget
3 completes, and by determinism its result is the transformer's value. -/
theorem c9_total_deterministic_witness :
    [callbackLastStmt (Stmt.mk 2 (StmtKind.Semi exG 0))] =
      handle_statements [exStmtG] :=
  c9_total_deterministic.2.2.1 3 [exStmtG]
    [callbackLastStmt (Stmt.mk 2 (StmtKind.Semi exG 0))] rfl

end RustAsync
